import Mathlib

/-!
Verification development for `terminal.py` ("My Personal Terminal").

The definitions below are a shallow embedding of the program's core:
the safe arithmetic evaluator (`safe_eval_expr` / `SAFE_OPS`), the
credential store (`shash`, registration and the login check), the
per-account workspace operations (categories, entries, the stored
entry format of `_write_entry`), the PIN lock/setpin/clearpin flows,
the JSON-loading wrapper `safe_json_load`, and the command dispatcher.

Modelling conventions:
- Python's arbitrary-precision `int` is `Int`; Python `float` is
  idealised as `ℚ`, and Python `complex` as a pair of rationals (exact
  arithmetic; the concrete values the theorems evaluate, such as
  7/2 = 3.5 or 1j/2 = 0.5j, are exactly representable as IEEE-754
  doubles, so the idealisation agrees with CPython there).
- Interactive `input()` prompts are modelled by passing the stream of
  operator answers as an explicit list; a loop that runs out of list
  is "still blocked at input()", not terminated.
- The filesystem directories/files are association lists keyed by
  exact name strings (POSIX case-sensitive filesystem semantics).
- Fallible operations return `Except`/`Option`.
-/

namespace Terminal

/-! ### Python string primitives (ASCII model)

`str.strip` / `str.rstrip` / `str.split()` as used by the source.
Python also treats some Unicode characters as whitespace; the program
only ever meets them through operator input, and no claim depends on
non-ASCII whitespace, so the ASCII whitespace set is modelled. -/

/-- The ASCII characters Python's `str.strip`/`split` treat as whitespace. -/
def pyIsSpace (c : Char) : Bool :=
  c = ' ' || c = '\t' || c = '\n' || c = '\r' || c = '\x0b' || c = '\x0c'

/-- Trailing-whitespace removal on character lists (Python `str.rstrip()`). -/
def rstripList (l : List Char) : List Char :=
  (l.reverse.dropWhile pyIsSpace).reverse

/-- Leading-whitespace removal on character lists (Python `str.lstrip()`). -/
def lstripList (l : List Char) : List Char :=
  l.dropWhile pyIsSpace

/-- Python `str.rstrip()`. -/
def pyRstrip (s : String) : String :=
  ⟨rstripList s.data⟩

/-- Python `str.strip()`. -/
def pyStrip (s : String) : String :=
  ⟨rstripList (lstripList s.data)⟩

/-- Accumulator-based splitting on whitespace runs (Python `str.split()`
with no argument: runs of whitespace separate words, no empty words). -/
def splitWSAux : List Char → List Char → List (List Char)
  | [], acc => if acc.isEmpty then [] else [acc.reverse]
  | c :: cs, acc =>
    if pyIsSpace c then
      if acc.isEmpty then splitWSAux cs [] else acc.reverse :: splitWSAux cs []
    else splitWSAux cs (c :: acc)

/-- Python `str.split()` with no separator argument. -/
def pySplit (s : String) : List String :=
  (splitWSAux s.data []).map (fun l => ⟨l⟩)

/-- terminal.py line 89: `normalize_title(title) = "_".join(title.strip().split())`. -/
def normalize_title (title : String) : String :=
  String.intercalate "_" (pySplit (pyStrip title))

/-! ### The safe calculator (terminal.py lines 114-140)

`safe_eval_expr` parses with `ast.parse(expr, mode="eval")` and then
walks the tree with `_eval`.  The embedding starts from the parsed
tree.  The `isinstance(node, ast.Num)` branch at terminal.py line 128
is live: the deprecated `ast.Num` alias defines an instance check that
matches `Constant` nodes whose value is an int, float or complex
(bool is explicitly excluded), and returns `node.n` — the value —
directly.  So numeric constants, complex imaginary literals such as
`1j` included, evaluate to themselves there; the following
`ast.Constant` branch then admits int/float values (and bools, since
Python's `bool` subclasses `int`) and raises "Only numbers allowed."
for the remaining constant kinds (strings, None, ...). -/

/-- Values a Python `ast.Constant` node can carry in an expression
(the kinds relevant to the evaluator's checks).  `bool` is kept
distinct from `int` because the *syntax* distinguishes them, even
though CPython's runtime makes `bool` a subclass of `int`.  `complex`
carries real and imaginary parts as rationals (the same idealisation
as floats); a parsed imaginary literal like `2.5j` has real part 0,
and the constructor admits any complex constant, all of which the
evaluator accepts alike. -/
inductive PyConst where
  | int (n : Int)
  | float (q : ℚ)
  | bool (b : Bool)
  | complex (re im : ℚ)
  | str (s : String)
  | noneVal
deriving DecidableEq

/-- Python unary operator AST nodes.  `SAFE_OPS` whitelists only
`USub` and `UAdd`; `Not` and `Invert` exist in the AST but are not in
the table. -/
inductive UnOp where
  | uadd
  | usub
  | notOp
  | invert
deriving DecidableEq

/-- Python binary operator AST nodes.  `SAFE_OPS` whitelists all of
them except `MatMult` (the `@` operator), which exists in the AST but
is not in the table. -/
inductive BinOp where
  | add
  | sub
  | mult
  | div
  | floorDiv
  | mod
  | pow
  | bitXor
  | lshift
  | rshift
  | bitAnd
  | bitOr
  | matMult
deriving DecidableEq

/-- Python expression AST (the fragment the evaluator can meet).
Constructors beyond constants/binary/unary model the "other syntax
constructs" of the spec: names, calls, strings (via `PyConst.str`),
comparisons, boolean operators, attribute access, subscripts.
`_eval` rejects a `Call` before ever looking at its children, so a
call is modelled with a single argument without loss. -/
inductive Expr where
  | const (v : PyConst)
  | binop (op : BinOp) (l r : Expr)
  | unaryop (op : UnOp) (e : Expr)
  | name (id : String)
  | call (func : Expr) (arg : Expr)
  | compare (l r : Expr)
  | boolop (l r : Expr)
  | attr (obj : Expr) (field : String)
  | subscript (obj : Expr) (idx : Expr)
deriving DecidableEq

/-- Membership of a binary operator node type in `SAFE_OPS`
(terminal.py lines 118-124). -/
def BinOp.inSafeOps : BinOp → Bool
  | .matMult => false
  | _ => true

/-- Membership of a unary operator node type in `SAFE_OPS`. -/
def UnOp.inSafeOps : UnOp → Bool
  | .uadd => true
  | .usub => true
  | _ => false

/-- Runtime values the evaluator produces: Python ints, floats
(idealised as rationals), bools (which the `Constant` branch admits
because `bool` subclasses `int`), and complex numbers (idealised as
rational real/imaginary parts, admitted via the live `ast.Num`
branch). -/
inductive PyVal where
  | int (n : Int)
  | float (q : ℚ)
  | bool (b : Bool)
  | complex (re im : ℚ)
deriving DecidableEq

/-- View a value as a Python `int` when arithmetic would stay integral:
ints are themselves, bools coerce to 0/1, floats and complexes do not. -/
def PyVal.asInt : PyVal → Option Int
  | .int n => some n
  | .bool b => some (if b then 1 else 0)
  | _ => none

/-- View a value as a real number (Python's float coercion): ints,
floats and bools are real, complexes are not. -/
def PyVal.toQ? : PyVal → Option ℚ
  | .int n => some (n : ℚ)
  | .float q => some q
  | .bool b => some (if b then 1 else 0)
  | .complex _ _ => none

/-- Numeric value of any evaluator value as a complex number
(real and imaginary rational parts). -/
def PyVal.toC : PyVal → ℚ × ℚ
  | .int n => ((n : ℚ), 0)
  | .float q => (q, 0)
  | .bool b => (if b then 1 else 0, 0)
  | .complex re im => (re, im)

/-- Whether a value is a Python float. -/
def PyVal.isFloatVal : PyVal → Bool
  | .float _ => true
  | _ => false

/-- Complex addition on rational pairs. -/
def cadd (p q : ℚ × ℚ) : ℚ × ℚ :=
  (p.1 + q.1, p.2 + q.2)

/-- Complex subtraction on rational pairs. -/
def csub (p q : ℚ × ℚ) : ℚ × ℚ :=
  (p.1 - q.1, p.2 - q.2)

/-- Complex multiplication on rational pairs. -/
def cmul (p q : ℚ × ℚ) : ℚ × ℚ :=
  (p.1 * q.1 - p.2 * q.2, p.1 * q.2 + p.2 * q.1)

/-- Complex division on rational pairs (denominator assumed nonzero by
the caller, which raises `ZeroDivisionError` otherwise). -/
def cdiv (p q : ℚ × ℚ) : ℚ × ℚ :=
  ((p.1 * q.1 + p.2 * q.2) / (q.1 ^ 2 + q.2 ^ 2),
   (p.2 * q.1 - p.1 * q.2) / (q.1 ^ 2 + q.2 ^ 2))

/-- Complex natural power by repeated multiplication. -/
def cpowNat (p : ℚ × ℚ) : Nat → ℚ × ℚ
  | 0 => (1, 0)
  | n + 1 => cmul p (cpowNat p n)

/-- Complex reciprocal. -/
def cinv (p : ℚ × ℚ) : ℚ × ℚ :=
  cdiv (1, 0) p

/-- The ways evaluation of a parsed expression can fail.  The first
two are the `ValueError`s raised explicitly by `_eval`
("Unsupported expression." and "Only numbers allowed."); the rest are
the exceptions the applied `operator` functions can raise
(`ZeroDivisionError`, negative shift count, `TypeError` on float
bitwise operands).  `nonIntPow` marks the boundary of the rational
idealisation: CPython computes an IEEE-754 value for a float power
with a non-integral exponent, which has no exact rational model; no
claim touches that corner. -/
inductive EvalErr where
  | unsupported
  | onlyNumbers
  | zeroDivision
  | negShift
  | typeError
  | nonIntPow
deriving DecidableEq

/-- Numeric promotion for Python `+`, `-`, `*`: an `int` result when
both operands are int-like (int or bool), a `float` when both are real
with a float among them, and a `complex` when either operand is
complex. -/
def arith (fi : Int → Int → Int) (fq : ℚ → ℚ → ℚ) (fc : ℚ × ℚ → ℚ × ℚ → ℚ × ℚ)
    (a b : PyVal) : Except EvalErr PyVal :=
  match a.asInt, b.asInt with
  | some m, some n => .ok (.int (fi m n))
  | _, _ =>
    match a.toQ?, b.toQ? with
    | some x, some y => .ok (.float (fq x y))
    | _, _ => .ok (.complex (fc a.toC b.toC).1 (fc a.toC b.toC).2)

/-- Python bitwise `^`/`&`/`|`: a `bool` result when both operands are
bools (bool defines its own `__and__` etc.), an `int` result when both
are int-like, `TypeError` when a float is involved. -/
def bitop (fb : Bool → Bool → Bool) (fi : Int → Int → Int) (a b : PyVal) : Except EvalErr PyVal :=
  match a, b with
  | .bool x, .bool y => .ok (.bool (fb x y))
  | _, _ =>
    match a.asInt, b.asInt with
    | some m, some n => .ok (.int (fi m n))
    | _, _ => .error .typeError

/-- Application of a whitelisted binary operator, following the
`operator` module's semantics on int/float/bool/complex operands. -/
def applyBin : BinOp → PyVal → PyVal → Except EvalErr PyVal
  | .add, a, b => arith (· + ·) (· + ·) cadd a b
  | .sub, a, b => arith (· - ·) (· - ·) csub a b
  | .mult, a, b => arith (· * ·) (· * ·) cmul a b
  | .div, a, b =>
    -- operator.truediv: a float result on real operands, complex when a
    -- complex operand is involved; ZeroDivisionError on a zero divisor
    match a.toQ?, b.toQ? with
    | some x, some y =>
      if y = 0 then .error .zeroDivision else .ok (.float (x / y))
    | _, _ =>
      if b.toC.1 = 0 ∧ b.toC.2 = 0 then .error .zeroDivision
      else .ok (.complex (cdiv a.toC b.toC).1 (cdiv a.toC b.toC).2)
  | .floorDiv, a, b =>
    -- complex has no __floordiv__: TypeError
    match a.toQ?, b.toQ? with
    | some x, some y =>
      if y = 0 then .error .zeroDivision
      else
        match a.asInt, b.asInt with
        | some m, some n => .ok (.int (Int.fdiv m n))
        | _, _ => .ok (.float ((Rat.floor (x / y) : Int) : ℚ))
    | _, _ => .error .typeError
  | .mod, a, b =>
    -- complex has no __mod__: TypeError
    match a.toQ?, b.toQ? with
    | some x, some y =>
      if y = 0 then .error .zeroDivision
      else
        match a.asInt, b.asInt with
        | some m, some n => .ok (.int (Int.fmod m n))
        | _, _ => .ok (.float (x - y * ((Rat.floor (x / y) : Int) : ℚ)))
    | _, _ => .error .typeError
  | .pow, a, b =>
    match a.asInt, b.asInt with
    | some m, some n =>
      if 0 ≤ n then .ok (.int (m ^ n.toNat))
      else if m = 0 then .error .zeroDivision
      else .ok (.float ((m : ℚ) ^ n))
    | _, _ =>
      match a.toQ?, b.toQ? with
      | some x, some y =>
        if y.den = 1 then
          if x = 0 ∧ y.num < 0 then .error .zeroDivision
          else .ok (.float (x ^ y.num))
        else .error .nonIntPow
      | _, _ =>
        -- a complex operand: exact for an int-like exponent, otherwise
        -- (complex exponent, or float exponent on a complex base) the
        -- IEEE-754 polar-form power is outside the rational idealisation
        match b.asInt with
        | some n =>
          if 0 ≤ n then
            .ok (.complex (cpowNat a.toC n.toNat).1 (cpowNat a.toC n.toNat).2)
          else if a.toC.1 = 0 ∧ a.toC.2 = 0 then .error .zeroDivision
          else
            .ok (.complex (cinv (cpowNat a.toC n.natAbs)).1 (cinv (cpowNat a.toC n.natAbs)).2)
        | none => .error .nonIntPow
  | .bitXor, a, b => bitop Bool.xor Int.xor a b
  | .bitAnd, a, b => bitop and Int.land a b
  | .bitOr, a, b => bitop or Int.lor a b
  | .lshift, a, b =>
    match a.asInt, b.asInt with
    | some m, some n =>
      if n < 0 then .error .negShift else .ok (.int (m * 2 ^ n.toNat))
    | _, _ => .error .typeError
  | .rshift, a, b =>
    match a.asInt, b.asInt with
    | some m, some n =>
      if n < 0 then .error .negShift else .ok (.int (Int.fdiv m (2 ^ n.toNat)))
    | _, _ => .error .typeError
  | .matMult, _, _ => .error .unsupported

/-- Application of a whitelisted unary operator: `operator.neg` and
`operator.pos` (both of which return an `int` on a bool operand, and
preserve float/complex kinds). -/
def applyUn : UnOp → PyVal → Except EvalErr PyVal
  | .usub, v =>
    match v.asInt with
    | some m => .ok (.int (-m))
    | none =>
      match v.toQ? with
      | some x => .ok (.float (-x))
      | none => .ok (.complex (-v.toC.1) (-v.toC.2))
  | .uadd, v =>
    match v.asInt with
    | some m => .ok (.int m)
    | none =>
      match v.toQ? with
      | some x => .ok (.float x)
      | none => .ok (.complex v.toC.1 v.toC.2)
  | _, _ => .error .unsupported

/-- terminal.py lines 126-140, the `_eval` walker of `safe_eval_expr`:
the live `isinstance(node, ast.Num)` branch returns the value of any
int, float or complex constant (bool excluded by the alias's instance
check); the `ast.Constant` branch then passes bools through its
`isinstance(node.value, (int, float))` check (Python's `bool` is a
subclass of `int`) and raises "Only numbers allowed." for the other
constant kinds; `BinOp`/`UnaryOp` nodes whose operator type is in
`SAFE_OPS` recurse, and everything else raises
"Unsupported expression.". -/
def safe_eval_expr : Expr → Except EvalErr PyVal
  | .const (.int n) => .ok (.int n)
  | .const (.float q) => .ok (.float q)
  | .const (.complex re im) => .ok (.complex re im)
  | .const (.bool b) => .ok (.bool b)
  | .const _ => .error .onlyNumbers
  | .binop op l r =>
    if op.inSafeOps then
      match safe_eval_expr l with
      | .error e => .error e
      | .ok a =>
        match safe_eval_expr r with
        | .error e => .error e
        | .ok b => applyBin op a b
    else .error .unsupported
  | .unaryop op e =>
    if op.inSafeOps then
      match safe_eval_expr e with
      | .error er => .error er
      | .ok a => applyUn op a
    else .error .unsupported
  | _ => .error .unsupported

/-- The claim's notion of a tree containing a construct other than an
int/float literal, a whitelisted binary operator or a whitelisted
unary operator (so a bool or complex literal counts as such a
construct). -/
def hasDisallowed : Expr → Bool
  | .const (.int _) => false
  | .const (.float _) => false
  | .const _ => true
  | .binop op l r => !op.inSafeOps || hasDisallowed l || hasDisallowed r
  | .unaryop op e => !op.inSafeOps || hasDisallowed e
  | _ => true

/-- Same notion, amended to also admit bool and complex literals — the
full set of literals the code's two isinstance checks (`ast.Num`, then
`isinstance(node.value, (int, float))`) actually accept. -/
def hasDisallowedA : Expr → Bool
  | .const (.int _) => false
  | .const (.float _) => false
  | .const (.bool _) => false
  | .const (.complex _ _) => false
  | .const _ => true
  | .binop op l r => !op.inSafeOps || hasDisallowedA l || hasDisallowedA r
  | .unaryop op e => !op.inSafeOps || hasDisallowedA e
  | _ => true

/-! ### Credential store (terminal.py lines 59-60, 192-244)

`users.json` is a dict `username → {password_hash, pin_hash|None}`,
modelled as an association list looked up by exact key. -/

/-- Model of `shash` (terminal.py line 59):
`hashlib.sha256(text.encode("utf-8")).hexdigest()`.  The real digest
function lives in `hashlib`, outside this repository; the model keeps
what the program relies on — a deterministic function of the input —
and idealises collision-freedom (the spec's "same input → same digest
so equality check is hash comparison" reading), which the injective
tagged encoding below makes literal. -/
def shash (text : String) : String :=
  "sha256:" ++ text

/-- One record of `users.json`: `{password_hash, pin_hash|None}`. -/
structure Account where
  password_hash : String
  pin_hash : Option String
deriving DecidableEq

/-- The `users.json` dict. -/
def Users := List (String × Account)

/-- Python dict assignment `users[username] = acct`, modelled so that
`List.lookup` sees the new binding (the overwritten binding is
shadowed and dropped). -/
def setUser (users : Users) (username : String) (acct : Account) : Users :=
  (username, acct) :: List.eraseP (fun p => p.1 == username) users

/-- The credential check of `_login_user` (terminal.py line 235):
`username in self.users and self.users[username]["password_hash"] == shash(pw)`. -/
def checkCredentials (users : Users) (username pw : String) : Bool :=
  match List.lookup username users with
  | some acct => acct.password_hash == shash pw
  | none => false

/-- The persisted effect of `_register_user` (terminal.py line 221)
after its validation loops have accepted a username and password:
`self.users[username] = {"password_hash": shash(pw), "pin_hash": pin_hash}`
(with no PIN chosen). -/
def registerUser (users : Users) (username pw : String) : Users :=
  setUser users username ⟨shash pw, none⟩

/-- The errors of the authentication layer. -/
inductive AuthErr where
  | invalidCredentials
deriving DecidableEq

/-- One authentication attempt as the spec's `authenticate` contract:
the credential check of `_login_user`, with a failed check reported as
"Invalid credentials." -/
def authenticate (users : Users) (username pw : String) : Except AuthErr String :=
  if checkCredentials users username pw then .ok username else .error .invalidCredentials

/-- Outcome of the login loop. -/
inductive LoginResult where
  | loggedIn (username : String)
  | fatalExit (code : Nat)
  | needMoreInput
deriving DecidableEq

/-- The `for _ in range(5)` loop of `_login_user` (terminal.py lines
232-244) with `fuel` iterations left: each iteration reads a
username/password pair (both `.strip()`ped by `input().strip()`),
logs in on a successful check, and when the loop ends calls
`sys.exit(1)`.  An exhausted input list means the process is still
blocked inside `input()`. -/
def loginAttempts (users : Users) : List (String × String) → Nat → LoginResult
  | _, 0 => .fatalExit 1
  | [], _ + 1 => .needMoreInput
  | (u, p) :: rest, n + 1 =>
    if checkCredentials users (pyStrip u) (pyStrip p) then .loggedIn (pyStrip u)
    else loginAttempts users rest n

/-- Model of `_login_user`: at most 5 attempts, then `sys.exit(1)`. -/
def login_user (users : Users) (inputs : List (String × String)) : LoginResult :=
  loginAttempts users inputs 5

/-! ### Account workspace (terminal.py lines 451-595)

A category is a directory under `users/<name>/data/`; an entry is a
file in it.  Directories and directory contents are association lists
keyed by exact (case-sensitive) names. -/

/-- The files of one category directory: filename → file content. -/
def Entries := List (String × String)

/-- The `data/` directory: category name → its files. -/
def Catalog := List (String × Entries)

/-- Whole-file write (create or overwrite) of one file in a directory. -/
def setFile (es : Entries) (name content : String) : Entries :=
  (name, content) :: List.eraseP (fun p => p.1 == name) es

/-- Replace one category's directory contents in the catalog. -/
def setCat (cats : Catalog) (name : String) (es : Entries) : Catalog :=
  (name, es) :: List.eraseP (fun p => p.1 == name) cats

/-- Workspace errors reported by the data-management handlers. -/
inductive WsErr where
  | categoryNotFound
  | entryNotFound
  | notEmpty
deriving DecidableEq

/-- Handler of `categories add <name>` (terminal.py lines 460-464):
`ensure_dirs` with `exist_ok=True`, so adding is idempotent. -/
def addCategory (cats : Catalog) (name : String) : Catalog :=
  match List.lookup name cats with
  | some _ => cats
  | none => (name, ([] : List (String × String))) :: cats

/-- Handler of `categories del <name>` (terminal.py lines 465-476): "Category not
found." if the directory is absent, "Category not empty." if
`any(cdir.iterdir())`, else `cdir.rmdir()`. -/
def removeCategory (cats : Catalog) (name : String) : Except WsErr Catalog :=
  match List.lookup name cats with
  | none => .error .categoryNotFound
  | some es =>
    if es.isEmpty then .ok (List.eraseP (fun p => p.1 == name) cats)
    else .error .notEmpty

/-- Insertion into a lexicographically sorted list of names. -/
def insertSorted (x : String) : List String → List String
  | [] => [x]
  | y :: ys => if x ≤ y then x :: y :: ys else y :: insertSorted x ys

/-- Model of `sorted(...)` on filename lists. -/
def sortStrings (l : List String) : List String :=
  l.foldr insertSorted []

/-- Handler of `view <category> all` (terminal.py lines 519-525):
`sorted(p.name for p in cdir.glob("*.txt"))`, or "Category not
found." when the directory is absent. -/
def viewAll (cats : Catalog) (name : String) : Except WsErr (List String) :=
  match List.lookup name cats with
  | none => .error .categoryNotFound
  | some es => .ok (sortStrings (((es.map Prod.fst).filter (fun f => f.endsWith ".txt"))))

/-- The metadata footer `_write_entry` appends (terminal.py line 487). -/
def entryFooter (ts title category : String) : String :=
  "\n\n---\nSaved on: " ++ ts ++ "\nTitle: " ++ title ++ "\nCategory: " ++ category ++ "\n"

/-- The full stored file content `_write_entry` writes:
`f"{content.rstrip()}\n\n---\nSaved on: {ts}\nTitle: {title}\nCategory: {category}\n"`. -/
def writeBody (content ts title category : String) : String :=
  pyRstrip content ++ entryFooter ts title category

/-- Model of `_write_entry` (terminal.py lines 479-489): `none` models the
`return False` taken when the category directory does not exist;
otherwise the file `<normalize_title(title)>.txt` is written whole.
`ts` stands for the `datetime.now()` timestamp string, supplied by the
environment. -/
def write_entry (cats : Catalog) (category title content ts : String) : Option Catalog :=
  match List.lookup category cats with
  | none => none
  | some es =>
    some (setCat cats category
      (setFile es (normalize_title title ++ ".txt") (writeBody content ts title category)))

/-- Handler of `view <category> <title>` (terminal.py lines 508-532, non-"all"
branch): look the category directory up, then the file named by the
normalized title. -/
def viewEntry (cats : Catalog) (category title : String) : Except WsErr String :=
  match List.lookup category cats with
  | none => .error .categoryNotFound
  | some es =>
    match List.lookup (normalize_title title ++ ".txt") es with
    | none => .error .entryNotFound
    | some content => .ok content

/-- Handler of `delete <category> <title>` (terminal.py lines 534-548): unlink the
file if it exists (a missing category simply means the file path does
not exist, "Entry not found."). -/
def deleteEntry (cats : Catalog) (category title : String) : Catalog :=
  match List.lookup category cats with
  | none => cats
  | some es =>
    setCat cats category (List.eraseP (fun p => p.1 == normalize_title title ++ ".txt") es)

/-- Handler of `edit <category> <title>|<content>` (terminal.py lines 550-569):
requires the entry to exist already, then overwrites via
`_write_entry`. -/
def editEntry (cats : Catalog) (category title content ts : String) : Option Catalog :=
  match List.lookup category cats with
  | none => none
  | some es =>
    match List.lookup (normalize_title title ++ ".txt") es with
    | none => none
    | some _ => write_entry cats category title content ts

/-! ### PIN lock, setpin, clearpin (terminal.py lines 402-448) -/

/-- Outcome of `do_lock`.  `awaitingInput` means the `while True` PIN
loop has consumed all supplied answers without a match and is blocked
at the next `input("PIN: ")` — it never exits any other way. -/
inductive LockOutcome where
  | noPin
  | unlocked
  | awaitingInput
deriving DecidableEq

/-- The `while True` retry loop of `do_lock` (terminal.py lines
408-413): read a PIN, strip it, hash-compare, return on match, print
"Wrong PIN." and loop otherwise. -/
def lockLoop (h : String) : List String → LockOutcome
  | [] => .awaitingInput
  | pin :: rest => if shash (pyStrip pin) == h then .unlocked else lockLoop h rest

/-- Model of `do_lock` (terminal.py lines 402-413): "No PIN set." when the
account has no PIN hash, otherwise the unbounded PIN retry loop. -/
def do_lock (pin_hash : Option String) (pins : List String) : LockOutcome :=
  match pin_hash with
  | none => .noPin
  | some h => lockLoop h pins

/-- Outcome of `do_setpin`'s new-PIN loop. -/
inductive SetpinResult where
  | incorrectOld
  | updated (newHash : String)
  | awaitingInput
deriving DecidableEq

/-- Messages `do_setpin` prints along the way. -/
inductive PinMsg where
  | incorrectOldMsg
  | invalidFormat
  | mismatch
  | updatedMsg
deriving DecidableEq

/-- The `pin.isdigit() and 4 <= len(pin) <= 8` validity check
(terminal.py line 424; `isdigit` over the ASCII digits). -/
def pinValid (pin : String) : Bool :=
  !pin.data.isEmpty && pin.data.all Char.isDigit
    && decide (4 ≤ pin.data.length) && decide (pin.data.length ≤ 8)

/-- The `while True` loop of `do_setpin` (terminal.py lines 422-434):
read a candidate PIN; if the format is valid, read a confirmation and
either update or print "PINs do not match." and loop; if invalid,
print "Invalid PIN format." and loop. -/
def setpinLoop : List String → SetpinResult × List PinMsg
  | [] => (.awaitingInput, [])
  | pin :: rest =>
    if pinValid (pyStrip pin) then
      match rest with
      | [] => (.awaitingInput, [])
      | confirm :: rest2 =>
        if pyStrip confirm == pyStrip pin then (.updated (shash (pyStrip pin)), [.updatedMsg])
        else ((setpinLoop rest2).1, PinMsg.mismatch :: (setpinLoop rest2).2)
    else ((setpinLoop rest).1, PinMsg.invalidFormat :: (setpinLoop rest).2)

/-- Model of `do_setpin` (terminal.py lines 415-434): when a PIN hash already
exists, the old PIN is demanded first and a mismatch aborts with
"Incorrect old PIN."; then the new-PIN loop runs. -/
def do_setpin (pin_hash : Option String) (inputs : List String) : SetpinResult × List PinMsg :=
  match pin_hash with
  | none => setpinLoop inputs
  | some h =>
    match inputs with
    | [] => (.awaitingInput, [])
    | old :: rest =>
      if shash (pyStrip old) == h then setpinLoop rest
      else (.incorrectOld, [.incorrectOldMsg])

/-- Outcome of `do_clearpin` (terminal.py lines 436-448): a single
attempt, no retry loop. -/
inductive ClearpinResult where
  | noPin
  | cleared
  | wrongPin
  | awaitingInput
deriving DecidableEq

/-- Model of `do_clearpin`. -/
def do_clearpin (pin_hash : Option String) (inputs : List String) : ClearpinResult :=
  match pin_hash with
  | none => .noPin
  | some h =>
    match inputs with
    | [] => .awaitingInput
    | pin :: _ => if shash (pyStrip pin) == h then .cleared else .wrongPin

/-- Update one user's `pin_hash` field (terminal.py lines 428 and 444:
`self.users[self.username]["pin_hash"] = ...` followed by
`_save_users`). -/
def setUserPin (users : Users) (username : String) (h : Option String) : Users :=
  users.map fun p =>
    match p.1 == username with
    | true => (p.1, Account.mk p.2.password_hash h)
    | false => p

/-! ### safe_json_load (terminal.py lines 65-71, 170-172)

`json.loads` lives in the standard library, outside this repository;
it is passed in as an arbitrary total parse function whose `none`
result stands for any exception the `try` block can catch (decode
errors, unreadable file).  The file argument is `none` when
`path.exists()` is false. -/

/-- A JSON value (the shape of the persisted records). -/
inductive Json where
  | null
  | bool (b : Bool)
  | num (q : ℚ)
  | str (s : String)
  | arr (elems : List Json)
  | obj (fields : List (String × Json))

/-- Model of `safe_json_load` (terminal.py lines 65-71): absent file → default;
parse exception → default; otherwise the parsed value. -/
def safe_json_load (loads : String → Option Json) (file : Option String) (default : Json) : Json :=
  match file with
  | none => default
  | some txt =>
    match loads txt with
    | none => default
    | some j => j

/-- Model of `_load_users` (terminal.py lines 170-172):
`safe_json_load(USERS_FILE, {})` — the default is the empty dict. -/
def load_users (loads : String → Option Json) (usersFile : Option String) : Json :=
  safe_json_load loads usersFile (Json.obj [])

/-! ### The command dispatcher (the `do_*` handlers of `MyPersonalTerminal`)

`cmd.Cmd` dispatches one parsed line to one handler; the handlers
below are modelled at the level of their already-split arguments.
`sys.exit` appears in exactly one place in the program — the end of
`_login_user` — so no command handler can terminate the process
fatally; the `Step` type records each handler's control effect. -/

/-- The session state a running `MyPersonalTerminal` instance carries,
together with the per-account files it reads and writes. -/
structure TermState where
  users : Users
  username : String
  pin_hash : Option String
  theme : String
  custom_prompt : String
  banner_on : Bool
  categories : Catalog
  webAliases : List (String × String)

/-- Control effect of one dispatched command: continue the loop, stop
it (`do_exit`/`do_quit` return True), block inside an interactive
`input()` loop, or terminate the process (`sys.exit`). -/
inductive Step where
  | cont
  | stop
  | blocked
  | fatal (code : Nat)
deriving DecidableEq

/-- One line of the command surface, with interactive follow-up input
(PIN prompts) carried as explicit lists and the `datetime.now()`
timestamp supplied by the environment.  `osCommand` is the `default`
fallback that hands the line to the external shell collaborator. -/
inductive Command where
  | now
  | calc (parsed : Option Expr)
  | clear
  | web (target : String)
  | webadd (aliasName url : String)
  | weblist
  | webdel (aliasName : String)
  | theme (choice : String)
  | promptCmd (text : String)
  | banner (val : String)
  | lock (pins : List String)
  | setpin (inputs : List String)
  | clearpin (inputs : List String)
  | categoriesList
  | categoriesAdd (name : String)
  | categoriesDel (name : String)
  | save (category title content ts : String)
  | view (category rest : String)
  | delete (category title : String)
  | edit (category title content ts : String)
  | search (category keyword : String)
  | osCommand (line : String)
  | exitCmd
  | quitCmd

/-- Dispatch of one command: the state after the handler runs and the
handler's control effect.  Read-only handlers (`now`, `calc`, `view`,
`search`, `weblist`, ...) and the external collaborators (`clear`,
`web`, `osCommand`) leave the state unchanged. -/
def execCommand (s : TermState) : Command → TermState × Step
  | .now => (s, .cont)
  | .calc _ => (s, .cont)
  | .clear => (s, .cont)
  | .web _ => (s, .cont)
  | .webadd a url => ({ s with webAliases := setFile s.webAliases a url }, .cont)
  | .weblist => (s, .cont)
  | .webdel a =>
    ({ s with webAliases := List.eraseP (fun p => p.1 == a) s.webAliases }, .cont)
  | .theme choice =>
    if choice = "dark" ∨ choice = "light" ∨ choice = "hacker" then
      ({ s with theme := choice }, .cont)
    else (s, .cont)
  | .promptCmd text =>
    if text = "" then (s, .cont) else ({ s with custom_prompt := text }, .cont)
  | .banner val =>
    if val = "on" then ({ s with banner_on := true }, .cont)
    else if val = "off" then ({ s with banner_on := false }, .cont)
    else (s, .cont)
  | .lock pins =>
    (s, match do_lock s.pin_hash pins with
        | .awaitingInput => .blocked
        | _ => .cont)
  | .setpin inputs =>
    match (do_setpin s.pin_hash inputs).1 with
    | .updated h =>
      ({ s with pin_hash := some h, users := setUserPin s.users s.username (some h) }, .cont)
    | .awaitingInput => (s, .blocked)
    | .incorrectOld => (s, .cont)
  | .clearpin inputs =>
    match do_clearpin s.pin_hash inputs with
    | .cleared =>
      ({ s with pin_hash := none, users := setUserPin s.users s.username none }, .cont)
    | .awaitingInput => (s, .blocked)
    | _ => (s, .cont)
  | .categoriesList => (s, .cont)
  | .categoriesAdd name => ({ s with categories := addCategory s.categories name }, .cont)
  | .categoriesDel name =>
    match removeCategory s.categories name with
    | .ok cats2 => ({ s with categories := cats2 }, .cont)
    | .error _ => (s, .cont)
  | .save cat title content ts =>
    match write_entry s.categories cat title content ts with
    | some cats2 => ({ s with categories := cats2 }, .cont)
    | none => (s, .cont)
  | .view _ _ => (s, .cont)
  | .delete cat title => ({ s with categories := deleteEntry s.categories cat title }, .cont)
  | .edit cat title content ts =>
    match editEntry s.categories cat title content ts with
    | some cats2 => ({ s with categories := cats2 }, .cont)
    | none => (s, .cont)
  | .search _ _ => (s, .cont)
  | .osCommand _ => (s, .cont)
  | .exitCmd => (s, .stop)
  | .quitCmd => (s, .stop)

/-- A concrete logged-in session state (the shape `_init_user_space`
produces), used to evaluate the dispatcher on representative inputs. -/
def sampleState : TermState :=
  { users := [("alice", ⟨shash "pw", some (shash "1234")⟩)]
    username := "alice"
    pin_hash := some (shash "1234")
    theme := "dark"
    custom_prompt := "myterm> "
    banner_on := true
    categories := [("notes", []), ("contacts", []), ("passwords", []), ("projects", [])]
    webAliases := [("yt", "https://youtube.com"), ("gg", "https://google.com")] }

/-! ## Theorems -/

/-- Every element of a `takeWhile p` satisfies `p`. -/
theorem mem_takeWhile_sat {p : Char → Bool} :
    ∀ {l : List Char} {a : Char}, a ∈ l.takeWhile p → p a = true := by
  intro l
  induction l with
  | nil => intro a ha; simp [List.takeWhile] at ha
  | cons c cs ih =>
    intro a ha
    by_cases hc : p c
    · rw [List.takeWhile_cons_of_pos hc] at ha
      rcases List.mem_cons.mp ha with h | h
      · rwa [h]
      · exact ih h
    · rw [List.takeWhile_cons_of_neg hc] at ha
      simp at ha

/-- A list is its rstrip followed by its all-whitespace tail. -/
theorem rstrip_append_trailing (l : List Char) :
    rstripList l ++ (l.reverse.takeWhile pyIsSpace).reverse = l := by
  rw [rstripList, ← List.reverse_append, List.takeWhile_append_dropWhile, List.reverse_reverse]

/-- The model hash is injective (the idealised collision-freedom of
SHA-256 that hash-equality authentication relies on). -/
theorem shash_inj {a b : String} (h : shash a = shash b) : a = b := by
  have hd := congrArg String.data h
  simp only [shash, String.data_append] at hd
  exact String.ext (List.append_cancel_left hd)

/-- An expression whose tree holds a construct the evaluator does not
admit (amended reading: int/float/bool literals and whitelisted
operators are admitted) always evaluates to an error. -/
theorem eval_error_of_hasDisallowedA :
    ∀ e : Expr, hasDisallowedA e = true → ∃ err, safe_eval_expr e = Except.error err := by
  intro e
  induction e with
  | const v =>
    cases v <;> intro h <;> simp [hasDisallowedA] at h <;>
      exact ⟨.onlyNumbers, rfl⟩
  | binop op l r ihl ihr =>
    intro h
    by_cases hop : op.inSafeOps = true
    · have h2 : hasDisallowedA l = true ∨ hasDisallowedA r = true := by
        simpa [hasDisallowedA, hop] using h
      rcases h2 with hl | hr
      · obtain ⟨err, herr⟩ := ihl hl
        exact ⟨err, by simp [safe_eval_expr, hop, herr]⟩
      · cases hev : safe_eval_expr l with
        | error e1 => exact ⟨e1, by simp [safe_eval_expr, hop, hev]⟩
        | ok a =>
          obtain ⟨err, herr⟩ := ihr hr
          exact ⟨err, by simp [safe_eval_expr, hop, hev, herr]⟩
    · exact ⟨.unsupported, by simp [safe_eval_expr, hop]⟩
  | unaryop op e ih =>
    intro h
    by_cases hop : op.inSafeOps = true
    · have h2 : hasDisallowedA e = true := by
        simpa [hasDisallowedA, hop] using h
      obtain ⟨err, herr⟩ := ih h2
      exact ⟨err, by simp [safe_eval_expr, hop, herr]⟩
    · exact ⟨.unsupported, by simp [safe_eval_expr, hop]⟩
  | name id => intro _; exact ⟨.unsupported, rfl⟩
  | call f a ihf iha => intro _; exact ⟨.unsupported, rfl⟩
  | compare l r ihl ihr => intro _; exact ⟨.unsupported, rfl⟩
  | boolop l r ihl ihr => intro _; exact ⟨.unsupported, rfl⟩
  | attr o f iho => intro _; exact ⟨.unsupported, rfl⟩
  | subscript o i iho ihi => intro _; exact ⟨.unsupported, rfl⟩

/-- C1 counterexample: the boolean literal `True` is a construct other
than an int/float literal, yet `safe_eval_expr` evaluates it to a
value instead of failing — `isinstance(True, (int, float))` holds in
Python because `bool` subclasses `int`, so `calc True` prints `True`. -/
theorem c1_counterexample :
    hasDisallowed (Expr.const (PyConst.bool true)) = true ∧
      safe_eval_expr (Expr.const (PyConst.bool true)) = Except.ok (PyVal.bool true) :=
  ⟨rfl, rfl⟩

/-- C1 (amended): any expression whose syntax tree contains a
construct other than a numeric literal the code's isinstance checks
admit (int, float, complex via the live `ast.Num` branch, and bool,
which Python counts as int), a whitelisted binary operator, or a
whitelisted unary operator (names, calls, strings, comparisons, ...)
fails with an evaluation error and never yields a value — the
evaluator's only behaviours are returning a number or raising, so no
code-execution path is reachable. -/
theorem c1_sandbox_rejects_nonwhitelisted (e : Expr) (h : hasDisallowedA e = true) :
    ∃ err, safe_eval_expr e = Except.error err :=
  eval_error_of_hasDisallowedA e h

/-- C1 witness: `__import__('os')` — a call on a name — and the
theorem applied to it. -/
theorem c1_witness :
    hasDisallowedA (Expr.call (Expr.name "__import__") (Expr.const (PyConst.str "os"))) = true
    ∧ ∃ err,
        safe_eval_expr (Expr.call (Expr.name "__import__") (Expr.const (PyConst.str "os")))
          = Except.error err :=
  ⟨rfl, c1_sandbox_rejects_nonwhitelisted _ rfl⟩

/-- Shape of a successful true division: a float on real operands, a
complex number when a complex operand is involved. -/
theorem applyBin_div_shape (a b v : PyVal) (h : applyBin .div a b = Except.ok v) :
    (∃ q, v = PyVal.float q) ∨ (∃ re im, v = PyVal.complex re im) := by
  simp only [applyBin] at h
  cases hqa : PyVal.toQ? a with
  | some x =>
    cases hqb : PyVal.toQ? b with
    | some y =>
      simp only [hqa, hqb] at h
      by_cases hy : y = 0
      · simp [hy] at h
      · rw [if_neg hy] at h
        cases h
        exact Or.inl ⟨_, rfl⟩
    | none =>
      simp only [hqa, hqb] at h
      by_cases hz : b.toC.1 = 0 ∧ b.toC.2 = 0
      · simp [hz] at h
      · rw [if_neg hz] at h
        cases h
        exact Or.inr ⟨_, _, rfl⟩
  | none =>
    simp only [hqa] at h
    by_cases hz : b.toC.1 = 0 ∧ b.toC.2 = 0
    · simp [hz] at h
    · rw [if_neg hz] at h
      cases h
      exact Or.inr ⟨_, _, rfl⟩

/-- C7 counterexample: `calc 1j/2` succeeds — the imaginary literal
enters through the live `ast.Num` branch — and its result `0.5j` is a
complex number, not a float, refuting "true division always yields a
floating-point result ... unless the floor-division operator is used"
at a concrete input. -/
theorem c7_counterexample :
    safe_eval_expr
        (Expr.binop .div (Expr.const (PyConst.complex 0 1)) (Expr.const (.int 2)))
      = Except.ok (PyVal.complex 0 (1 / 2))
    ∧ PyVal.isFloatVal (PyVal.complex 0 (1 / 2)) = false := by
  constructor
  · simp only [safe_eval_expr, BinOp.inSafeOps, if_true, applyBin, PyVal.toQ?, PyVal.toC, cdiv]
    norm_num
  · rfl

/-- C7 (amended): the evaluator computes standard arithmetic with
numeric promotion — `(2+3)*4` gives the int `20`, `7/2` gives the
float `3.5`, `7//2` gives the int `3`; a successful true division
yields a float or, when a complex operand such as `1j` is involved, a
complex number; and true division of real operands (int/float/bool),
whenever it succeeds, always yields a float. -/
theorem c7_arithmetic_and_float_division :
    safe_eval_expr
        (Expr.binop .mult
          (Expr.binop .add (Expr.const (.int 2)) (Expr.const (.int 3)))
          (Expr.const (.int 4)))
      = Except.ok (PyVal.int 20)
    ∧ safe_eval_expr (Expr.binop .div (Expr.const (.int 7)) (Expr.const (.int 2)))
        = Except.ok (PyVal.float (7 / 2))
    ∧ safe_eval_expr (Expr.binop .floorDiv (Expr.const (.int 7)) (Expr.const (.int 2)))
        = Except.ok (PyVal.int 3)
    ∧ (∀ l r v, safe_eval_expr (Expr.binop .div l r) = Except.ok v →
        (∃ q, v = PyVal.float q) ∨ (∃ re im, v = PyVal.complex re im))
    ∧ (∀ (a b v : PyVal) (x y : ℚ), PyVal.toQ? a = some x → PyVal.toQ? b = some y →
        applyBin .div a b = Except.ok v → ∃ q, v = PyVal.float q) := by
  refine ⟨rfl, rfl, rfl, ?_, ?_⟩
  · intro l r v h
    simp only [safe_eval_expr, BinOp.inSafeOps, if_true] at h
    cases hl : safe_eval_expr l with
    | error e1 => rw [hl] at h; cases h
    | ok a =>
      rw [hl] at h
      cases hr : safe_eval_expr r with
      | error e2 => rw [hr] at h; cases h
      | ok b =>
        rw [hr] at h
        exact applyBin_div_shape a b v h
  · intro a b v x y hx hy h
    simp only [applyBin, hx, hy] at h
    by_cases h0 : y = 0
    · simp [h0] at h
    · rw [if_neg h0] at h
      cases h
      exact ⟨_, rfl⟩

/-- C7 witness: the real-operand division conjunct applied to the
concrete `7/2` evaluation. -/
theorem c7_witness : ∃ q, PyVal.float ((7 : ℚ) / 2) = PyVal.float q :=
  c7_arithmetic_and_float_division.2.2.2.2 (PyVal.int 7) (PyVal.int 2)
    (PyVal.float ((7 : ℚ) / 2)) 7 2 rfl rfl rfl

/-- When the next `n` attempts all fail the check, the login loop with
`n` iterations left exits the process with code 1. -/
theorem loginAttempts_fatal (users : Users) :
    ∀ (n : Nat) (inputs : List (String × String)), n ≤ inputs.length →
      (∀ a ∈ inputs.take n, checkCredentials users (pyStrip a.1) (pyStrip a.2) = false) →
      loginAttempts users inputs n = LoginResult.fatalExit 1 := by
  intro n
  induction n with
  | zero => intro inputs _ _; cases inputs <;> rfl
  | succ n ih =>
    intro inputs hlen hfail
    match inputs with
    | [] => simp at hlen
    | (u, p) :: rest =>
      have h0 : checkCredentials users (pyStrip u) (pyStrip p) = false := by
        simpa using hfail (u, p) (by simp [List.take_succ_cons])
      simp only [loginAttempts, h0, if_false]
      apply ih
      · simpa using hlen
      · intro a ha
        exact hfail a (by simp [List.take_succ_cons]; right; exact ha)

/-- The login loop with `n` iterations left never looks past the first
`n` input pairs. -/
theorem loginAttempts_take (users : Users) :
    ∀ (n : Nat) (inputs : List (String × String)),
      loginAttempts users inputs n = loginAttempts users (inputs.take n) n := by
  intro n
  induction n with
  | zero => intro inputs; cases inputs <;> rfl
  | succ n ih =>
    intro inputs
    match inputs with
    | [] => rfl
    | (u, p) :: rest =>
      simp only [List.take_succ_cons, loginAttempts]
      by_cases hc : checkCredentials users (pyStrip u) (pyStrip p)
      · simp [hc]
      · simp [hc, ih rest]

/-- C2: the login flow allows at most 5 failed credential attempts —
when the first 5 supplied attempts all fail it calls `sys.exit(1)`
(non-zero), and it never reads a 6th attempt — and this is the only
fatal path: no dispatched command ever produces a `fatal` step. -/
theorem c2_login_throttle_sole_fatal :
    (∀ (users : Users) (inputs : List (String × String)),
        5 ≤ inputs.length →
        (∀ a ∈ inputs.take 5, checkCredentials users (pyStrip a.1) (pyStrip a.2) = false) →
        login_user users inputs = LoginResult.fatalExit 1)
    ∧ (∀ (users : Users) (inputs : List (String × String)),
        login_user users inputs = login_user users (inputs.take 5))
    ∧ (∀ (s : TermState) (c : Command) (code : Nat), (execCommand s c).2 ≠ Step.fatal code) := by
  refine ⟨?_, ?_, ?_⟩
  · intro users inputs hlen hfail
    exact loginAttempts_fatal users 5 inputs hlen hfail
  · intro users inputs
    have h := loginAttempts_take users 5 inputs
    simpa [login_user, List.take_take] using h
  · intro s c code
    cases c <;> simp only [execCommand] <;> (repeat' split) <;> simp

/-- C2 witness: five concrete failing attempts against an empty user
store exit fatally, via the theorem. -/
theorem c2_witness :
    login_user [] [("a", "b"), ("a", "b"), ("a", "b"), ("a", "b"), ("a", "b")]
      = LoginResult.fatalExit 1 :=
  c2_login_throttle_sole_fatal.1 [] _ (by decide) (by decide)

/-- C3: `categories del` fails with the not-found report when the
category is absent, fails with the not-empty report when the directory
contains anything, and whenever it succeeds, `view all` on that
category (in the pre-removal state) returns the empty listing. -/
theorem c3_remove_category_guard (cats : Catalog) (name : String) :
    (List.lookup name cats = none →
        removeCategory cats name = Except.error WsErr.categoryNotFound)
    ∧ (∀ es, List.lookup name cats = some es → es ≠ [] →
        removeCategory cats name = Except.error WsErr.notEmpty)
    ∧ (∀ cats2, removeCategory cats name = Except.ok cats2 →
        viewAll cats name = Except.ok []) := by
  refine ⟨?_, ?_, ?_⟩
  · intro h
    simp [removeCategory, h]
  · intro es h hne
    simp [removeCategory, h, List.isEmpty_iff, hne]
  · intro cats2 h
    cases hl : List.lookup name cats with
    | none => simp [removeCategory, hl] at h
    | some es =>
      rw [removeCategory, hl] at h
      by_cases he : es.isEmpty
      · have he2 : es = [] := List.isEmpty_iff.mp he
        subst he2
        simp [viewAll, hl, sortStrings]
      · simp [he] at h

/-- C3 witness: removing an absent category, via the theorem. -/
theorem c3_witness :
    removeCategory [("notes", ([] : Entries))] "gone" = Except.error WsErr.categoryNotFound :=
  (c3_remove_category_guard [("notes", [])] "gone").1 rfl

/-- C4 counterexample: the claim's own round trip — save "My Title"
then view "my   title" (different whitespace AND letter case) — does
not retrieve the entry: `normalize_title` collapses whitespace but
preserves case, so the saved file is `My_Title.txt` while the lookup
asks for `my_title.txt`, and the exact-name (case-sensitive
filesystem) lookup fails with the entry-not-found report. -/
theorem c4_counterexample :
    write_entry [("notes", [])] "notes" "My Title" "body" "2026-01-01 10:00:00"
      = some [("notes",
          [("My_Title.txt", writeBody "body" "2026-01-01 10:00:00" "My Title" "notes")])]
    ∧ viewEntry
        [("notes",
          [("My_Title.txt", writeBody "body" "2026-01-01 10:00:00" "My Title" "notes")])]
        "notes" "my   title"
      = Except.error WsErr.entryNotFound :=
  ⟨rfl, rfl⟩

/-- C4 (amended): for an existing category, saving under a title and
viewing under any title with the same normalization (same words and
case, whitespace collapsed the same way) retrieves the stored entry,
because entry identity is the whitespace-collapsed normalized title. -/
theorem c4_view_after_save_normalized (cats : Catalog) (cat t1 t2 body ts : String)
    (hnorm : normalize_title t2 = normalize_title t1)
    (es : Entries) (hcat : List.lookup cat cats = some es) :
    ∃ cats2, write_entry cats cat t1 body ts = some cats2 ∧
      viewEntry cats2 cat t2 = Except.ok (writeBody body ts t1 cat) := by
  refine ⟨_, by rw [write_entry, hcat], ?_⟩
  simp [viewEntry, setCat, setFile, List.lookup, hnorm]

/-- C4 witness: save "My Title", view "My   Title" (same case, extra
whitespace), via the theorem. -/
theorem c4_witness :
    ∃ cats2, write_entry [("notes", [])] "notes" "My Title" "body" "TS" = some cats2 ∧
      viewEntry cats2 "notes" "My   Title" = Except.ok (writeBody "body" "TS" "My Title" "notes") :=
  c4_view_after_save_normalized [("notes", [])] "notes" "My Title" "My   Title" "body" "TS"
    (by decide) [] rfl

/-- C5: for any non-empty username and password, register followed by
authenticate with the same pair succeeds, and authenticate with the
same username but a different password fails with invalid
credentials — the hash is deterministic, so equal passwords give equal
digests, and (collision-freedom idealised) unequal passwords give
unequal digests, which is what the hash comparison tests. -/
theorem c5_register_authenticate (users : Users) (u p p2 : String)
    (_hu : u ≠ "") (_hp : p ≠ "") :
    authenticate (registerUser users u p) u p = Except.ok u
    ∧ (p2 ≠ p →
        authenticate (registerUser users u p) u p2 = Except.error AuthErr.invalidCredentials) := by
  constructor
  · simp [authenticate, checkCredentials, registerUser, setUser, List.lookup]
  · intro hne
    have hne2 : ¬(shash p = shash p2) := fun hh => hne (shash_inj hh).symm
    simp [authenticate, checkCredentials, registerUser, setUser, List.lookup, hne2]

/-- C5 witness: concrete credentials, via the theorem. -/
theorem c5_witness :
    authenticate (registerUser [] "alice" "pw1") "alice" "pw1" = Except.ok "alice"
    ∧ authenticate (registerUser [] "alice" "pw1") "alice" "pw2"
        = Except.error AuthErr.invalidCredentials := by
  have h := c5_register_authenticate [] "alice" "pw1" "pw2" (by decide) (by decide)
  exact ⟨h.1, h.2 (by decide)⟩

/-- A PIN-lock loop over inputs that never hash-match stays in the
loop (still awaiting input after any finite number of wrong answers). -/
theorem lockLoop_all_wrong (h : String) :
    ∀ pins : List String, (∀ p ∈ pins, shash (pyStrip p) ≠ h) →
      lockLoop h pins = LockOutcome.awaitingInput := by
  intro pins
  induction pins with
  | nil => intro _; rfl
  | cons p rest ih =>
    intro hall
    have h1 : (shash (pyStrip p) == h) = false := by
      simpa using hall p (List.mem_cons_self p rest)
    simp only [lockLoop, h1, Bool.false_eq_true, if_false]
    exact ih fun q hq => hall q (List.mem_cons_of_mem _ hq)

/-- Any run of wrong `0000` answers followed by the correct `1234`
unlocks. -/
theorem lockLoop_eventually_unlocks :
    ∀ n : Nat, lockLoop (shash "1234") (List.replicate n "0000" ++ ["1234"])
      = LockOutcome.unlocked := by
  intro n
  induction n with
  | zero => decide
  | succ n ih =>
    have h1 : (shash (pyStrip "0000") == shash "1234") = false := by decide
    simpa [List.replicate_succ, lockLoop, h1] using ih

/-- C6: `lock` reports "No PIN set." and stays in the session when the
account has no PIN hash; with a PIN hash set via `setpin 1234`,
supplying `1234` (after any number of wrong tries) unlocks, while
supplying only wrong PINs never unlocks and never leaves the retry
loop; and the lock command never changes the session/account state. -/
theorem c6_pin_lock_flow :
    (∀ pins : List String, do_lock none pins = LockOutcome.noPin)
    ∧ (∀ (h : String) (pins : List String), (∀ p ∈ pins, shash (pyStrip p) ≠ h) →
        do_lock (some h) pins = LockOutcome.awaitingInput)
    ∧ (∀ n : Nat, do_lock (some (shash "1234")) (List.replicate n "0000" ++ ["1234"])
        = LockOutcome.unlocked)
    ∧ (∀ (s : TermState) (pins : List String), (execCommand s (Command.lock pins)).1 = s) := by
  refine ⟨fun _ => rfl, ?_, ?_, fun _ _ => rfl⟩
  · intro h pins hall
    exact lockLoop_all_wrong h pins hall
  · intro n
    exact lockLoop_eventually_unlocks n

/-- C6 witness: two wrong `0000` answers leave the lock loop waiting,
via the theorem. -/
theorem c6_witness :
    do_lock (some (shash "1234")) ["0000", "0000"] = LockOutcome.awaitingInput :=
  c6_pin_lock_flow.2.1 (shash "1234") ["0000", "0000"] (by decide)

/-- Looking a user up after `setUserPin` rewrites exactly that user's
`pin_hash` field. -/
theorem lookup_setUserPin :
    ∀ (users : Users) (uname : String) (h : Option String) (a : Account),
      List.lookup uname users = some a →
      List.lookup uname (setUserPin users uname h) = some (Account.mk a.password_hash h) := by
  intro users uname h
  induction users with
  | nil => intro a ha; simp [List.lookup] at ha
  | cons q rest ih =>
    obtain ⟨k, acct⟩ := q
    intro a ha
    by_cases he : uname = k
    · subst he
      simp [List.lookup] at ha
      subst ha
      simp [setUserPin, List.lookup]
    · have hb : (uname == k) = false := by simpa using he
      have hb2 : (k == uname) = false := by simpa using fun hh => he hh.symm
      simp only [List.lookup, hb] at ha
      simp only [setUserPin, List.map_cons, hb2, Bool.false_eq_true, if_false]
      simpa [List.lookup, hb, setUserPin] using ih a ha

/-- C8: `setpin` aborts with the incorrect-old-PIN report (changing
nothing) when a PIN hash exists and the supplied old PIN does not
hash-match; a candidate new PIN that is not 4-8 decimal digits is
rejected with the invalid-format report (the loop re-prompts); and on
success the updated PIN hash is stored in the session and persisted
into the account record. -/
theorem c8_setpin :
    (∀ (s : TermState) (h old : String) (rest : List String),
        s.pin_hash = some h → shash (pyStrip old) ≠ h →
        do_setpin s.pin_hash (old :: rest) = (SetpinResult.incorrectOld, [PinMsg.incorrectOldMsg])
        ∧ execCommand s (Command.setpin (old :: rest)) = (s, Step.cont))
    ∧ (∀ (pin : String) (rest : List String), pinValid (pyStrip pin) = false →
        setpinLoop (pin :: rest)
          = ((setpinLoop rest).1, PinMsg.invalidFormat :: (setpinLoop rest).2))
    ∧ (∀ (s : TermState) (inputs : List String) (h2 : String) (a : Account),
        (do_setpin s.pin_hash inputs).1 = SetpinResult.updated h2 →
        List.lookup s.username s.users = some a →
        (execCommand s (Command.setpin inputs)).1.pin_hash = some h2
        ∧ List.lookup s.username (execCommand s (Command.setpin inputs)).1.users
            = some (Account.mk a.password_hash (some h2))) := by
  refine ⟨?_, ?_, ?_⟩
  · intro s h old rest hs hne
    have hb : (shash (pyStrip old) == h) = false := by simpa using hne
    have hdo : do_setpin s.pin_hash (old :: rest)
        = (SetpinResult.incorrectOld, [PinMsg.incorrectOldMsg]) := by
      simp [do_setpin, hs, hb]
    exact ⟨hdo, by simp [execCommand, hdo]⟩
  · intro pin rest hinv
    rw [setpinLoop.eq_def]
    simp [hinv]
  · intro s inputs h2 a hdo ha
    simp only [execCommand, hdo]
    exact ⟨trivial, lookup_setUserPin s.users s.username (some h2) a ha⟩

/-- C8 witness: wrong old PIN aborts without change, and a 2-digit
candidate is rejected as invalid, via the theorem. -/
theorem c8_witness :
    (do_setpin sampleState.pin_hash ["0000", "5678", "5678"]
        = (SetpinResult.incorrectOld, [PinMsg.incorrectOldMsg])
      ∧ execCommand sampleState (Command.setpin ["0000", "5678", "5678"])
          = (sampleState, Step.cont))
    ∧ setpinLoop ["12", "5678", "5678"]
        = ((setpinLoop ["5678", "5678"]).1, PinMsg.invalidFormat :: (setpinLoop ["5678", "5678"]).2) := by
  constructor
  · exact c8_setpin.1 sampleState (shash "1234") "0000" ["5678", "5678"] rfl (by decide)
  · exact c8_setpin.2.1 "12" ["5678", "5678"] (by decide)

/-- C9: the stored form of an entry is exactly the supplied content
with trailing whitespace stripped, then a blank line and the footer
lines `---`, `Saved on: <ts>`, `Title: <title>`, `Category: <cat>`;
two contents equal after rstrip store identically (given the same
timestamp); and the stored form is never byte-identical to the raw
content that was saved. -/
theorem c9_stored_entry_format :
    (∀ c ts t cat : String,
        writeBody c ts t cat
          = pyRstrip c
              ++ ("\n\n---\n" ++ ("Saved on: " ++ ts ++ "\n")
                  ++ ("Title: " ++ t ++ "\n") ++ ("Category: " ++ cat ++ "\n")))
    ∧ (∀ c1 c2 ts t cat : String, pyRstrip c1 = pyRstrip c2 →
        writeBody c1 ts t cat = writeBody c2 ts t cat)
    ∧ (∀ c ts t cat : String, writeBody c ts t cat ≠ c) := by
  refine ⟨?_, ?_, ?_⟩
  · intro c ts t cat
    apply String.ext
    simp [writeBody, entryFooter, String.data_append]
  · intro c1 c2 ts t cat hr
    simp [writeBody, hr]
  · intro c ts t cat h
    have hd : rstripList c.data ++ (entryFooter ts t cat).data = c.data := by
      simpa [writeBody, pyRstrip, String.data_append] using congrArg String.data h
    have hFT : (entryFooter ts t cat).data = (c.data.reverse.takeWhile pyIsSpace).reverse :=
      List.append_cancel_left (hd.trans (rstrip_append_trailing c.data).symm)
    have hmem : '-' ∈ (entryFooter ts t cat).data := by
      simp [entryFooter, String.data_append]
    rw [hFT] at hmem
    have hsp := mem_takeWhile_sat (List.mem_reverse.mp hmem)
    simp [pyIsSpace] at hsp

/-- C9 witness: contents differing only in trailing whitespace store
identically, via the theorem. -/
theorem c9_witness :
    writeBody "body  \n" "TS" "T" "notes" = writeBody "body" "TS" "T" "notes" :=
  c9_stored_entry_format.2.1 "body  \n" "body" "TS" "T" "notes" (by decide)

/-- C10: `safe_json_load` is total by construction and returns the
caller's default whenever the file is absent or its contents fail to
parse, and otherwise the parsed value; in particular `_load_users` on
a corrupt accounts file yields the empty account dict. -/
theorem c10_safe_json_load_total :
    (∀ (loads : String → Option Json) (default : Json),
        safe_json_load loads none default = default)
    ∧ (∀ (loads : String → Option Json) (default : Json) (txt : String),
        loads txt = none → safe_json_load loads (some txt) default = default)
    ∧ (∀ (loads : String → Option Json) (default : Json) (txt : String) (j : Json),
        loads txt = some j → safe_json_load loads (some txt) default = j)
    ∧ (∀ (loads : String → Option Json) (file : Option String),
        (file = none ∨ ∃ txt, file = some txt ∧ loads txt = none) →
        load_users loads file = Json.obj []) := by
  refine ⟨fun _ _ => rfl, ?_, ?_, ?_⟩
  · intro loads default txt hp
    simp [safe_json_load, hp]
  · intro loads default txt j hp
    simp [safe_json_load, hp]
  · intro loads file hf
    rcases hf with rfl | ⟨txt, rfl, hp⟩
    · rfl
    · simp [load_users, safe_json_load, hp]

/-- C10 witness: an unparsable accounts file yields the empty account
dict, via the theorem. -/
theorem c10_witness :
    load_users (fun _ => none) (some "not json") = Json.obj [] :=
  c10_safe_json_load_total.2.2.2 (fun _ => none) (some "not json")
    (Or.inr ⟨"not json", rfl, rfl⟩)

end Terminal
